import Mathlib

set_option maxRecDepth 8000
set_option linter.unusedVariables false

/-!
Verification development for `backend/app/scrapers/lsf_scraper.py` (class `LsfScraper`).

The scraper has two independent phases:

1. a login state machine (`login`, `_inject_sso_credentials`) driving an SSO
   form-fill against an external browser driver, and
2. a semester-scoped extraction algorithm (`extract_current_classes`,
   `_legacy_extract`) over the parsed HTML page, orchestrated by
   `get_current_classes`.

The extraction phase is embedded directly: the parsed HTML document is modelled
as the pre-order list of its element tags (`Tag`), each carrying its tag name,
class list and visible text; `BeautifulSoup.find_all`, `find_all_next` and
`get_text` become list operations on that flattened document.  The regular
expressions used by the source (`\s+` for normalisation, the two semester
patterns with `re.IGNORECASE`, `\d{4,6}`, and Python's `in` substring test) are
embedded as executable character-list functions.

The login phase performs external effects only; it is embedded as a pure
function from an environment record (what the driver/page would answer at each
observation point) to the boolean result plus the list of side effects
(`Act`) performed, mirroring the source's control flow including its
try/except and try/finally structure.
-/

/-! ## Character and string primitives -/

/-- Python's `\s` class over the ASCII range: the whitespace characters that
`re.sub(r'\s+', ' ', t)` collapses in `normalize`. -/
def isSpaceChar (c : Char) : Bool :=
  c = ' ' || c = '\t' || c = '\n' || c = '\r' || c = '\x0b' || c = '\x0c'

/-- One pass of `re.sub(r'\s+', ' ', t)`: every maximal run of whitespace is
replaced by a single space.  The boolean records whether the previous character
belonged to a whitespace run. -/
def collapseWS : Bool → List Char → List Char
  | _, [] => []
  | inRun, c :: rest =>
    if isSpaceChar c then
      if inRun then collapseWS true rest
      else ' ' :: collapseWS true rest
    else c :: collapseWS false rest

/-- The source's local helper `normalize(t) = re.sub(r'\s+', ' ', t).strip()`:
collapse whitespace runs to single spaces, then trim both ends. -/
def normalizeList (s : List Char) : List Char :=
  (((collapseWS false s).dropWhile isSpaceChar).reverse.dropWhile isSpaceChar).reverse

/-- String-level wrapper of `normalize`. -/
def normalizeStr (s : String) : String :=
  ⟨normalizeList s.data⟩

/-- Does `s` start with the literal `pat` (case-sensitive)? -/
def startsWithList : List Char → List Char → Bool
  | [], _ => true
  | _ :: _, [] => false
  | p :: ps, c :: cs => p = c && startsWithList ps cs

/-- Regex-search combinator: `re.search` succeeds iff the position matcher `m`
succeeds at some suffix of the subject (positions scanned left to right). -/
def searchBy (m : List Char → Bool) : List Char → Bool
  | [] => m []
  | c :: t => m (c :: t) || searchBy m t

/-- Python's substring test `pat in s`. -/
def containsList (pat s : List Char) : Bool :=
  searchBy (startsWithList pat) s

/-- Python's substring test on strings. -/
def containsStr (pat s : String) : Bool :=
  containsList pat.data s.data

/-- Position matcher for the regex `\d{4,6}`: at least four consecutive ASCII
digits start here (the 4-to-6 repetition succeeds exactly when four digits are
available). -/
def startsDigits4 : List Char → Bool
  | a :: b :: c :: d :: _ => a.isDigit && b.isDigit && c.isDigit && d.isDigit
  | _ => false

/-- Consume the literal `pat` case-insensitively (re.IGNORECASE semantics for a
plain literal) and return the remaining subject, or `none` on mismatch. -/
def dropLitCI : List Char → List Char → Option (List Char)
  | [], s => some s
  | _ :: _, [] => none
  | p :: ps, c :: cs => if p.toLower = c.toLower then dropLitCI ps cs else none

/-- Position matcher for the first target pattern
`r"Wintersemester\s*2025/26"` under `re.IGNORECASE`. -/
def matchExactAt (s : List Char) : Bool :=
  match dropLitCI "Wintersemester".data s with
  | none => false
  | some rest => startsWithList "2025/26".data (rest.dropWhile isSpaceChar)

/-- Position matcher for the second target pattern
`r"(Wintersemester|Sommersemester)\s*\d{4}(/\d{2})?"` under `re.IGNORECASE`.
The trailing optional group `(/\d{2})?` can always match the empty string, so
search success only requires the four digits. -/
def matchGenericAt (s : List Char) : Bool :=
  match dropLitCI "Wintersemester".data s with
  | some rest => startsDigits4 (rest.dropWhile isSpaceChar)
  | none =>
    match dropLitCI "Sommersemester".data s with
    | some rest => startsDigits4 (rest.dropWhile isSpaceChar)
    | none => false

/-- The two entries of the source's `target_patterns` list, in order. -/
inductive TermPat where
  | exact
  | generic
deriving DecidableEq

/-- `re.search(p, txt, re.IGNORECASE)` for the two semester patterns. -/
def searchTerm : TermPat → String → Bool
  | TermPat.exact, s => searchBy matchExactAt s.data
  | TermPat.generic, s => searchBy matchGenericAt s.data

/-! ## Document model and `extract_current_classes` -/

/-- One element tag of the parsed HTML document: tag name, `class` attribute
list, and normalised-input visible text (`get_text()` of the element).  The
document is its pre-order list of tags. -/
structure Tag where
  name : String
  classes : List String
  text : String
deriving DecidableEq

/-- The repeated test `element.name == "div" and "Leistungen_Inhalt" in
element.get("class", [])`, also the `find_all("div", class_="Leistungen_Inhalt")`
filter. -/
def isHeaderTag (t : Tag) : Bool :=
  t.name == "div" && t.classes.contains "Leistungen_Inhalt"

/-- Semester headers of the document together with their document-order
positions, mirroring `soup.find_all("div", class_="Leistungen_Inhalt")`. -/
def headersFrom : Nat → List Tag → List (Nat × Tag)
  | _, [] => []
  | i, tg :: rest =>
    if isHeaderTag tg then (i, tg) :: headersFrom (i + 1) rest
    else headersFrom (i + 1) rest

/-- `all_headers`, with document positions attached. -/
def headersEnum (doc : List Tag) : List (Nat × Tag) :=
  headersFrom 0 doc

/-- Inner loop of the start-marker scan: first header (in document order) whose
normalised text matches pattern `p`. -/
def findHeaderMatching (p : TermPat) : List (Nat × Tag) → Option Nat
  | [] => none
  | (i, tg) :: rest =>
    if searchTerm p (normalizeStr tg.text) then some i
    else findHeaderMatching p rest

/-- Outer loop of the start-marker scan: try each pattern in order, stop at the
first that yields a match. -/
def findStartPats : List TermPat → List (Nat × Tag) → Option Nat
  | [], _ => none
  | p :: ps, hs =>
    match findHeaderMatching p hs with
    | some i => some i
    | none => findStartPats ps hs

/-- The source's `target_patterns` list: the exact expected term first, then the
generic semester pattern. -/
def target_patterns : List TermPat :=
  [TermPat.exact, TermPat.generic]

/-- Document position of `start_node`, the selected current-semester header. -/
def findStart (doc : List Tag) : Option Nat :=
  findStartPats target_patterns (headersEnum doc)

/-- The `for element in start_node.find_all_next()` loop restricted to its
observable outcome: walk the tags after the start node in document order,
stop at the next `div` with class `Leistungen_Inhalt`, and collect the anchor
tags seen on the way (`candidate_links`). -/
def collectCandidateLinks : List Tag → List Tag
  | [] => []
  | tg :: rest =>
    if isHeaderTag tg then []
    else if tg.name == "a" then tg :: collectCandidateLinks rest
    else collectCandidateLinks rest

/-- The source's `junk` list of noise tokens, verbatim. -/
def junkTokens : List String :=
  ["Tag", "Zeit", "Rhythmus", "Dauer", "Raum", "Lehrperson", "Hinweis",
   "Belegungsinformation", "findet statt", "Belegungs-", "PDF", "Stundenplan",
   "Anmelden", "Login", "Abmelden"]

/-- Logic A of the candidate loop: `re.search(r'\d{4,6}', link_text)`. -/
def hasIdPattern (t : String) : Bool :=
  searchBy startsDigits4 t.data

/-- The junk filter `any(j.lower() in link_text.lower() for j in junk)`. -/
def hasJunkToken (t : String) : Bool :=
  junkTokens.any (fun j => containsList (j.data.map Char.toLower) (t.data.map Char.toLower))

/-- Net value of the `is_candidate` flag for one normalised link text: set by
the id-pattern test, then forced off by the junk filter or a length below 5. -/
def is_candidate (t : String) : Bool :=
  hasIdPattern t && !hasJunkToken t && !decide (t.length < 5)

/-- The candidate-processing loop: normalise each link text, keep it when
`is_candidate` holds and the text was not seen before, recording kept texts in
`seen_names`. -/
def processLinks : List String → List String → List String
  | _, [] => []
  | seen, t :: rest =>
    let lt := normalizeStr t
    if is_candidate lt then
      if seen.contains lt then processLinks seen rest
      else lt :: processLinks (lt :: seen) rest
    else processLinks seen rest

/-- `soup.get_text()` over the flattened document: concatenation of all tag
texts in document order. -/
def getText (doc : List Tag) : String :=
  String.join (doc.map Tag.text)

/-- `_legacy_extract`: tests for the old start marker in the normalised page
text and yields no entries on either branch (the index-based extraction of the
legacy layout is intentionally not implemented). -/
def legacy_extract (doc : List Tag) : List String :=
  if !containsStr "Aktuelle Veranstaltungen:" (normalizeStr (getText doc)) then []
  else []

/-- `extract_current_classes`: locate the current-semester header, collect the
anchors up to the next semester header, and classify them; if no header
matches, fall back to the legacy marker check or return the empty list. -/
def extract_current_classes (doc : List Tag) : List String :=
  match findStart doc with
  | some i =>
    processLinks [] ((collectCandidateLinks (doc.drop (i + 1))).map Tag.text)
  | none =>
    if containsStr "Aktuelle Veranstaltungen" (getText doc) then legacy_extract doc
    else []

/-! ## Specification-side definitions (for refinement statements) -/

/-- Modelled from the spec (section 4.5, step 5): keep the first occurrence of
each distinct text, dropping later duplicates; this is the deduplication policy
the claims compare the classifier against. -/
def dedupKeepFirst : List String → List String → List String
  | _, [] => []
  | seen, t :: rest =>
    if seen.contains t then dedupKeepFirst seen rest
    else t :: dedupKeepFirst (t :: seen) rest

/-- Two character lists that are equal up to ASCII letter case. -/
abbrev caseEqL (s s' : List Char) : Prop :=
  s.map Char.toLower = s'.map Char.toLower

/-! ## Login phase: effects and environments -/

/-- Observable side effects of the login phase on the shared browser session,
in the order the source performs them. -/
inductive Act where
  | navigate (url : String)
  | clickLogin
  | fillUsername
  | fillPassword
  | clickSubmit
  | submitForm
  | fillToken
  | clickProceed
  | dumpDebug (label : String)
  | quitDriver
deriving DecidableEq

/-- `self.lsf_url`, the fixed deep link into the lectures view. -/
def lsf_url : String :=
  "https://www.lsf.tu-dortmund.de/qisserver/rds?state=wscheck&wscheck=leistungen&navigationPosition=functions%2CmyLecturesWScheck&breadcrumb=myLectures&topitem=functions&subitem=myLecturesWScheck"

/-- Environment of `_inject_sso_credentials`: what the driver answers at each
observation point of that method. -/
structure SsoEnv where
  waitTimeout1 : Bool
  url1 : String
  src1 : String
  userFieldVisible : Bool
  passFieldVisible : Bool
  submitBtnVisible : Bool
  twoFaWaitTimeout : Bool
  twoFaIndicator : Bool
  totpConfigured : Bool
  tokenFieldVisible : Bool
  proceedClickOk : Bool
  finalWaitOk : Bool
deriving DecidableEq

/-- Environment of `login`: the navigation state observed after `driver.get`,
whether a login affordance is found, and the injector's environment. -/
structure LoginEnv where
  urlAfterNav : String
  srcAfterNav : String
  loginBtnFound : Bool
  sso : SsoEnv
deriving DecidableEq

/-- Step 5 of `_inject_sso_credentials` (the inner 2FA `try` block): on a
tolerated wait timeout nothing happens; otherwise, when an OTP indicator is
present and a TOTP secret is configured and a token field resolves, the code is
typed and a proceed control clicked (the click itself may fail, swallowed). -/
def twoFaActions (env : SsoEnv) : List Act :=
  if env.twoFaWaitTimeout then []
  else if env.twoFaIndicator && env.totpConfigured then
    if env.tokenFieldVisible then
      if env.proceedClickOk then [Act.fillToken, Act.clickProceed]
      else [Act.fillToken]
    else []
  else []

/-- `_inject_sso_credentials` as a pure function: result plus performed
actions.  Every raised exception (wait timeout, missing username or password
field, final-redirect timeout) is caught by the method's own `except` clause,
which dumps a debug artifact and returns `False`. -/
def inject_sso_credentials (env : SsoEnv) : Bool × List Act :=
  if env.waitTimeout1 then
    (false, [Act.dumpDebug "lsf_injection_fail"])
  else if containsStr "lsf.tu-dortmund.de" env.url1 && containsStr "Abmelden" env.src1 then
    (true, [])
  else if !env.userFieldVisible then
    (false, [Act.dumpDebug "lsf_login_no_user", Act.dumpDebug "lsf_injection_fail"])
  else if !env.passFieldVisible then
    (false, [Act.fillUsername, Act.dumpDebug "lsf_injection_fail"])
  else
    let submitAct := if env.submitBtnVisible then Act.clickSubmit else Act.submitForm
    let base := [Act.fillUsername, Act.fillPassword, submitAct] ++ twoFaActions env
    if env.finalWaitOk then (true, base)
    else (false, base ++ [Act.dumpDebug "lsf_injection_fail"])

/-- `login`: navigate to `lsf_url`; short-circuit to success when already on
the portal domain with the logged-in marker; otherwise optionally click a login
affordance (skipped when already on the SSO domain) and delegate to the
credential injector. -/
def login (env : LoginEnv) : Bool × List Act :=
  if containsStr "lsf.tu-dortmund.de" env.urlAfterNav && containsStr "Abmelden" env.srcAfterNav then
    (true, [Act.navigate lsf_url])
  else
    let btnActs :=
      if containsStr "sso.itmc" env.urlAfterNav then []
      else if env.loginBtnFound then [Act.clickLogin] else []
    let r := inject_sso_credentials env.sso
    (r.1, Act.navigate lsf_url :: (btnActs ++ r.2))

/-- The dictionary returned by `get_current_classes`: either
`{"success": True, "current_classes": [{"name": n} ...]}` (kept as the list of
names) or `{"success": False, "error": msg}`. -/
inductive ScrapeResult where
  | ok (current_classes : List String)
  | err (msg : String)
deriving DecidableEq

/-- Environment of `get_current_classes`: whether `_setup_driver` raises and
whether a driver object exists afterwards, the login environment, the URL
observed after login, an exception possibly raised during the page-retrieval
steps, and the page obtained by the hybrid fetch (`none` models a falsy fetch
result, in which case the selenium page source is parsed instead). -/
structure OrchEnv where
  setupRaises : Bool
  setupErrMsg : String
  driverExists : Bool
  loginEnv : LoginEnv
  urlAfterLogin : String
  midRaises : Option String
  fetchResult : Option (List Tag)
  seleniumSource : List Tag
deriving DecidableEq

/-- The document actually parsed: the hybrid fetch result, or the selenium page
source when the fetch returned nothing. -/
def effectiveDoc (env : OrchEnv) : List Tag :=
  match env.fetchResult with
  | some d => d
  | none => env.seleniumSource

/-- Body of `get_current_classes` up to and including its `except` clause:
driver setup, login (a `False` login yields the fixed "Login failed" error),
optional re-navigation to the lectures page, page fetch and extraction; any
exception is converted to `{"success": False, "error": str(e)}`. -/
def runScrape (env : OrchEnv) : ScrapeResult × List Act :=
  if env.setupRaises then
    (ScrapeResult.err env.setupErrMsg, [])
  else
    let r := login env.loginEnv
    if !r.1 then
      (ScrapeResult.err "Login failed", r.2)
    else
      let navActs :=
        if containsStr "state=wscheck" env.urlAfterLogin then []
        else [Act.navigate lsf_url]
      match env.midRaises with
      | some msg => (ScrapeResult.err msg, r.2 ++ navActs)
      | none =>
        (ScrapeResult.ok (extract_current_classes (effectiveDoc env)), r.2 ++ navActs)

/-- `get_current_classes` with its `finally` clause: whatever the body did, the
driver is quit afterwards when one exists. -/
def get_current_classes (env : OrchEnv) : ScrapeResult × List Act :=
  let r := runScrape env
  (r.1, r.2 ++ (if env.driverExists then [Act.quitDriver] else []))

/-! ## Concrete documents and environments used by examples and witnesses -/

/-- The end-to-end scenario document of the spec: current-semester header, three
anchors, next-semester header, and a trailing anchor that must not be reached. -/
def docC2 : List Tag :=
  [⟨"div", ["Leistungen_Inhalt"], "Wintersemester 2025/26"⟩,
   ⟨"a", [], "Algorithmen 12345"⟩,
   ⟨"a", [], "Raum 101"⟩,
   ⟨"a", [], "Grundlagen der Informatik 54321"⟩,
   ⟨"div", ["Leistungen_Inhalt"], "Sommersemester 2025"⟩,
   ⟨"a", [], "Betriebssysteme 99999"⟩]

/-- A document whose first header matches only the generic pattern and whose
second header matches the exact pattern. -/
def docC4 : List Tag :=
  [⟨"div", ["Leistungen_Inhalt"], "Sommersemester 2024"⟩,
   ⟨"div", ["Leistungen_Inhalt"], "Wintersemester 2025/26"⟩]

/-- Boundary-scenario document pieces: a non-matching header, the matching
header, a mid section without headers, the closing header, and a tail. -/
def preC3 : List Tag := [⟨"div", ["Leistungen_Inhalt"], "Archiv"⟩]

/-- The selected start header of the boundary scenario. -/
def hdrC3 : Tag := ⟨"div", ["Leistungen_Inhalt"], "Wintersemester 2025/26"⟩

/-- The section between the two headers in the boundary scenario. -/
def midC3 : List Tag :=
  [⟨"a", [], "Analysis 23456"⟩, ⟨"span", [], "Raumplan"⟩, ⟨"a", [], "Numerik 34567"⟩]

/-- The closing header of the boundary scenario. -/
def hdr3C3 : Tag := ⟨"div", ["Leistungen_Inhalt"], "Sommersemester 2026"⟩

/-- The tail after the closing header in the boundary scenario. -/
def postC3 : List Tag := [⟨"a", [], "Danach 77777"⟩]

/-- The full boundary-scenario document. -/
def docC3 : List Tag := preC3 ++ hdrC3 :: (midC3 ++ hdr3C3 :: postC3)

/-- A single lowercase semester header, for the case-insensitivity claim. -/
def docC10 : List Tag :=
  [⟨"div", ["Leistungen_Inhalt"], "wintersemester 2025/26"⟩]

/-- Injection environment in which the SSO page shows a username field but no
password field resolves. -/
def ssoEnvC1 : SsoEnv :=
  ⟨false, "https://sso.itmc.tu-dortmund.de/login", "Login", true, false, false,
   true, false, false, false, true, false⟩

/-- Login environment reaching the injector with `ssoEnvC1`. -/
def loginEnvC1 : LoginEnv :=
  ⟨"https://sso.itmc.tu-dortmund.de/login", "Login", false, ssoEnvC1⟩

/-- Orchestration environment for the password-field failure scenario. -/
def envC1 : OrchEnv :=
  ⟨false, "", true, loginEnvC1, "", none, none, []⟩

/-- Login environment of a session that is already authenticated. -/
def loginEnvAuth : LoginEnv :=
  ⟨"https://www.lsf.tu-dortmund.de/qisserver/rds?state=wscheck", "... Abmelden ...", false,
   ssoEnvC1⟩

/-- Orchestration environment for the no-header scenario: authenticated login,
no exceptions, and a fetched page without any semester header or legacy
marker. -/
def envC7 : OrchEnv :=
  ⟨false, "", true, loginEnvAuth, "https://www.lsf.tu-dortmund.de/qisserver/rds?state=wscheck",
   none, some [⟨"a", [], "Hallo Welt 12345"⟩], []⟩

/-! ## General helper lemmas -/

theorem char_eq_iff_toNat (c d : Char) : c = d ↔ c.toNat = d.toNat := by
  constructor
  · intro h
    exact congrArg Char.toNat h
  · intro h
    exact Char.ext (UInt32.ext h)

theorem isDigit_iff_toNat (c : Char) : c.isDigit = true ↔ 48 ≤ c.toNat ∧ c.toNat ≤ 57 := by
  rw [Char.isDigit]
  simp only [Bool.and_eq_true, decide_eq_true_eq, UInt32.le_def, BitVec.le_def]
  exact Iff.rfl

theorem toLower_toNat (c : Char) :
    (Char.toLower c).toNat = if 65 ≤ c.toNat ∧ c.toNat ≤ 90 then c.toNat + 32 else c.toNat := by
  rw [Char.toLower]
  split
  next h =>
    rw [Char.ofNat, dif_pos (Or.inl (by omega : c.toNat + 32 < 55296))]
    rfl
  next h => rfl

theorem isSpaceChar_iff_toNat (c : Char) : isSpaceChar c = true ↔
    (c.toNat = 32 ∨ c.toNat = 9 ∨ c.toNat = 10 ∨ c.toNat = 13 ∨ c.toNat = 11 ∨ c.toNat = 12) := by
  constructor
  · intro h
    have h' : c = ' ' ∨ c = '\t' ∨ c = '\n' ∨ c = '\r' ∨ c = '\x0b' ∨ c = '\x0c' := by
      simpa [isSpaceChar, or_assoc] using h
    rcases h' with rfl | rfl | rfl | rfl | rfl | rfl <;> simp
  · intro h
    rcases h with h | h | h | h | h | h <;>
      simp [isSpaceChar, char_eq_iff_toNat, h]

theorem toLower_eq_cases {c c' : Char} (h : c.toLower = c'.toLower) :
    c = c' ∨ (65 ≤ c.toNat ∧ c.toNat ≤ 90 ∧ c'.toNat = c.toNat + 32)
      ∨ (65 ≤ c'.toNat ∧ c'.toNat ≤ 90 ∧ c.toNat = c'.toNat + 32) := by
  have hn := congrArg Char.toNat h
  rw [toLower_toNat, toLower_toNat] at hn
  rw [char_eq_iff_toNat]
  split at hn <;> split at hn <;> omega

/-! ## Extraction helper lemmas -/

theorem headersFrom_mem (l : List Tag) :
    ∀ (i : Nat) (x : Nat × Tag), x ∈ headersFrom i l → x.2 ∈ l ∧ isHeaderTag x.2 = true := by
  induction l with
  | nil => intro i x hx; simp [headersFrom] at hx
  | cons tg rest ih =>
    intro i x hx
    rw [headersFrom] at hx
    by_cases h : isHeaderTag tg
    · rw [if_pos h] at hx
      rcases List.mem_cons.mp hx with rfl | hx'
      · exact ⟨List.mem_cons_self _ _, h⟩
      · have := ih _ _ hx'
        exact ⟨List.mem_cons_of_mem _ this.1, this.2⟩
    · rw [if_neg h] at hx
      have := ih _ _ hx
      exact ⟨List.mem_cons_of_mem _ this.1, this.2⟩

theorem findHeaderMatching_none_of (p : TermPat) (hs : List (Nat × Tag))
    (h : ∀ x ∈ hs, searchTerm p (normalizeStr x.2.text) = false) :
    findHeaderMatching p hs = none := by
  induction hs with
  | nil => rfl
  | cons x rest ih =>
    obtain ⟨i, tg⟩ := x
    rw [findHeaderMatching, if_neg]
    · exact ih fun y hy => h y (List.mem_cons_of_mem _ hy)
    · simp [h (i, tg) (List.mem_cons_self _ _)]

theorem findHeaderMatching_append_first (p : TermPat) (h1 h2 : List (Nat × Tag)) (i : Nat) (tg : Tag)
    (hfail : ∀ x ∈ h1, searchTerm p (normalizeStr x.2.text) = false)
    (hhit : searchTerm p (normalizeStr tg.text) = true) :
    findHeaderMatching p (h1 ++ (i, tg) :: h2) = some i := by
  induction h1 with
  | nil => simp [findHeaderMatching, hhit]
  | cons x rest ih =>
    obtain ⟨j, tg'⟩ := x
    rw [List.cons_append, findHeaderMatching, if_neg]
    · exact ih fun y hy => hfail y (List.mem_cons_of_mem _ hy)
    · simp [hfail (j, tg') (List.mem_cons_self _ _)]

theorem findStart_none (doc : List Tag)
    (h : ∀ tg ∈ doc, isHeaderTag tg = true →
      searchTerm TermPat.exact (normalizeStr tg.text) = false ∧
      searchTerm TermPat.generic (normalizeStr tg.text) = false) :
    findStart doc = none := by
  have hall : ∀ x ∈ headersEnum doc,
      searchTerm TermPat.exact (normalizeStr x.2.text) = false ∧
      searchTerm TermPat.generic (normalizeStr x.2.text) = false := by
    intro x hx
    have hm := headersFrom_mem doc 0 x hx
    exact h x.2 hm.1 hm.2
  have he := findHeaderMatching_none_of TermPat.exact (headersEnum doc)
    fun x hx => (hall x hx).1
  have hg := findHeaderMatching_none_of TermPat.generic (headersEnum doc)
    fun x hx => (hall x hx).2
  simp [findStart, target_patterns, findStartPats, he, hg]

theorem drop_append_cons (pre rest : List Tag) (a : Tag) :
    (pre ++ a :: rest).drop (pre.length + 1) = rest := by
  induction pre with
  | nil => rfl
  | cons x pre ih => simp only [List.cons_append, List.length_cons, List.drop_succ_cons]; exact ih

theorem collect_stops (mid rest : List Tag)
    (hmid : ∀ t ∈ mid, isHeaderTag t = false)
    (hrest : rest = [] ∨ ∃ H3 post, rest = H3 :: post ∧ isHeaderTag H3 = true) :
    collectCandidateLinks (mid ++ rest) = mid.filter (fun t => t.name == "a") := by
  induction mid with
  | nil =>
    rcases hrest with rfl | ⟨H3, post, rfl, h3⟩
    · rfl
    · simp [collectCandidateLinks, h3]
  | cons t mid' ih =>
    have ht := hmid t (List.mem_cons_self _ _)
    rw [List.cons_append, collectCandidateLinks, if_neg (by simp [ht]), List.filter_cons]
    by_cases ha : t.name == "a"
    · rw [if_pos ha, if_pos ha, ih fun y hy => hmid y (List.mem_cons_of_mem _ hy)]
    · rw [if_neg ha, if_neg ha, ih fun y hy => hmid y (List.mem_cons_of_mem _ hy)]

theorem processLinks_sublist (links : List String) :
    ∀ seen, (processLinks seen links).Sublist (links.map normalizeStr) := by
  induction links with
  | nil => intro seen; simp [processLinks]
  | cons t rest ih =>
    intro seen
    simp only [processLinks, List.map_cons]
    by_cases hc : is_candidate (normalizeStr t) = true
    · rw [if_pos hc]
      by_cases hs : List.contains seen (normalizeStr t) = true
      · rw [if_pos hs]
        exact (ih seen).cons _
      · rw [if_neg hs]
        exact (ih _).cons₂ _
    · rw [if_neg hc]
      exact (ih seen).cons _

theorem processLinks_not_mem_seen (links : List String) :
    ∀ seen x, x ∈ processLinks seen links → x ∉ seen := by
  induction links with
  | nil => intro seen x hx; simp [processLinks] at hx
  | cons t rest ih =>
    intro seen x hx
    simp only [processLinks] at hx
    by_cases hc : is_candidate (normalizeStr t) = true
    · rw [if_pos hc] at hx
      by_cases hs : List.contains seen (normalizeStr t) = true
      · rw [if_pos hs] at hx
        exact ih seen x hx
      · rw [if_neg hs] at hx
        rcases List.mem_cons.mp hx with rfl | hx'
        · intro hmem
          exact hs (by simpa using hmem)
        · intro hmem
          exact ih _ x hx' (List.mem_cons_of_mem _ hmem)
    · rw [if_neg hc] at hx
      exact ih seen x hx

theorem processLinks_nodup (links : List String) :
    ∀ seen, (processLinks seen links).Nodup := by
  induction links with
  | nil => intro seen; simp [processLinks]
  | cons t rest ih =>
    intro seen
    simp only [processLinks]
    by_cases hc : is_candidate (normalizeStr t) = true
    · rw [if_pos hc]
      by_cases hs : List.contains seen (normalizeStr t) = true
      · rw [if_pos hs]
        exact ih seen
      · rw [if_neg hs]
        refine List.nodup_cons.mpr ⟨?_, ih _⟩
        intro hmem
        exact processLinks_not_mem_seen rest _ _ hmem (List.mem_cons_self _ _)
    · rw [if_neg hc]
      exact ih seen

theorem processLinks_eq_dedup (links : List String) :
    ∀ seen, processLinks seen links =
      dedupKeepFirst seen ((links.map normalizeStr).filter (fun t => is_candidate t)) := by
  induction links with
  | nil => intro seen; rfl
  | cons t rest ih =>
    intro seen
    simp only [processLinks, List.map_cons, List.filter_cons]
    by_cases hc : is_candidate (normalizeStr t) = true
    · rw [if_pos hc, if_pos hc, dedupKeepFirst]
      by_cases hs : List.contains seen (normalizeStr t) = true
      · rw [if_pos hs, if_pos hs]
        exact ih seen
      · rw [if_neg hs, if_neg hs, ih]
    · rw [if_neg hc, if_neg hc]
      exact ih seen

theorem searchDigits_iff (s : List Char) :
    searchBy startsDigits4 s = true ↔
      ∃ p m q : List Char, s = p ++ m ++ q ∧ 4 ≤ m.length ∧ m.length ≤ 6 ∧
        ∀ c ∈ m, c.isDigit = true := by
  constructor
  · intro h
    induction s with
    | nil => simp [searchBy, startsDigits4] at h
    | cons c t ih =>
      rw [searchBy, Bool.or_eq_true] at h
      rcases h with h | h
      · rcases t with _ | ⟨b, t⟩
        · simp [startsDigits4] at h
        rcases t with _ | ⟨c2, t⟩
        · simp [startsDigits4] at h
        rcases t with _ | ⟨d, rest⟩
        · simp [startsDigits4] at h
        rw [startsDigits4] at h
        simp only [Bool.and_eq_true] at h
        obtain ⟨⟨⟨h1, h2⟩, h3⟩, h4⟩ := h
        refine ⟨[], [c, b, c2, d], rest, rfl, by simp, by simp, ?_⟩
        intro x hx
        simp only [List.mem_cons, List.not_mem_nil, or_false] at hx
        rcases hx with rfl | rfl | rfl | rfl <;> assumption
      · obtain ⟨p, m, q, rfl, h4, h6, hd⟩ := ih h
        exact ⟨c :: p, m, q, rfl, h4, h6, hd⟩
  · intro h
    obtain ⟨p, m, q, rfl, h4, h6, hd⟩ := h
    induction p with
    | nil =>
      rcases m with _ | ⟨a, m⟩
      · simp at h4
      rcases m with _ | ⟨b, m⟩
      · simp at h4
      rcases m with _ | ⟨c2, m⟩
      · simp at h4
      rcases m with _ | ⟨d, m'⟩
      · simp at h4
      have ha := hd a (by simp)
      have hb := hd b (by simp)
      have hc2 := hd c2 (by simp)
      have hdd := hd d (by simp)
      simp [searchBy, startsDigits4, ha, hb, hc2, hdd]
    | cons x p' ih =>
      rw [List.cons_append, List.cons_append, searchBy, Bool.or_eq_true]
      right
      exact ih

/-! ## Claim theorems -/

/-- C1 (counterexample): in a run where the SSO page shows a username field but
no password field resolves, the username is filled and a debug artifact is
attempted, but the top-level result is `{success: false, error: "Login failed"}`
and NOT `{success: false, error: "Password field not found"}` as claimed: the
injector catches its own "Password field not found" exception and returns a
bare `False`, which the orchestrator maps to the fixed "Login failed" text. -/
theorem c1_counterexample :
    (get_current_classes envC1).1 = ScrapeResult.err "Login failed"
    ∧ (get_current_classes envC1).1 ≠ ScrapeResult.err "Password field not found"
    ∧ Act.fillUsername ∈ (get_current_classes envC1).2
    ∧ Act.dumpDebug "lsf_injection_fail" ∈ (get_current_classes envC1).2 := by
  decide

/-- C1 (amended): if the password field cannot be resolved after the username
field has been filled, the top-level operation's result is
`{success: false, error: "Login failed"}` (the injector's internal
"Password field not found" exception is caught and logged inside
`_inject_sso_credentials`), and a debug artifact capture is attempted. -/
theorem c1_password_failure (env : OrchEnv)
    (hsetup : env.setupRaises = false)
    (hauth1 : (containsStr "lsf.tu-dortmund.de" env.loginEnv.urlAfterNav
        && containsStr "Abmelden" env.loginEnv.srcAfterNav) = false)
    (hwait : env.loginEnv.sso.waitTimeout1 = false)
    (hauth2 : (containsStr "lsf.tu-dortmund.de" env.loginEnv.sso.url1
        && containsStr "Abmelden" env.loginEnv.sso.src1) = false)
    (huser : env.loginEnv.sso.userFieldVisible = true)
    (hpass : env.loginEnv.sso.passFieldVisible = false) :
    (get_current_classes env).1 = ScrapeResult.err "Login failed"
    ∧ Act.fillUsername ∈ (get_current_classes env).2
    ∧ Act.dumpDebug "lsf_injection_fail" ∈ (get_current_classes env).2 := by
  have hinj : inject_sso_credentials env.loginEnv.sso =
      (false, [Act.fillUsername, Act.dumpDebug "lsf_injection_fail"]) := by
    rw [inject_sso_credentials, if_neg (by simp [hwait]), if_neg (by simp [hauth2]),
      if_neg (by simp [huser]), if_pos (by simp [hpass])]
  have hlog : login env.loginEnv =
      (false, Act.navigate lsf_url ::
        ((if containsStr "sso.itmc" env.loginEnv.urlAfterNav then []
          else if env.loginEnv.loginBtnFound then [Act.clickLogin] else [])
         ++ [Act.fillUsername, Act.dumpDebug "lsf_injection_fail"])) := by
    rw [login, if_neg (by simp [hauth1]), hinj]
  refine ⟨?_, ?_, ?_⟩
  · simp [get_current_classes, runScrape, hsetup, hlog]
  · simp [get_current_classes, runScrape, hsetup, hlog]
  · simp [get_current_classes, runScrape, hsetup, hlog]

/-- C1 (witness): the amended statement holds at the concrete environment of
the counterexample. -/
theorem c1_password_failure_witness :
    (get_current_classes envC1).1 = ScrapeResult.err "Login failed"
    ∧ Act.fillUsername ∈ (get_current_classes envC1).2
    ∧ Act.dumpDebug "lsf_injection_fail" ∈ (get_current_classes envC1).2 :=
  c1_password_failure envC1 (by decide) (by decide) (by decide) (by decide)
    (by decide) (by decide)

/-- C2: on the end-to-end scenario document — header "Wintersemester 2025/26",
anchors "Algorithmen 12345", "Raum 101", "Grundlagen der Informatik 54321",
header "Sommersemester 2025", then a further anchor — extraction returns
exactly ["Algorithmen 12345", "Grundlagen der Informatik 54321"] in that
order; moreover "Raum 101" does trigger the noise token "Raum". -/
theorem c2_end_to_end :
    extract_current_classes docC2 = ["Algorithmen 12345", "Grundlagen der Informatik 54321"]
    ∧ hasJunkToken (normalizeStr "Raum 101") = true := by
  decide

/-- C5: a candidate's normalized text passes the id-pattern stage (the
`is_candidate` marking before the noise-token and minimum-length rejections)
iff that text contains a run of 4 to 6 consecutive ASCII digits. -/
theorem c5_digit_token (t : String) :
    hasIdPattern (normalizeStr t) = true ↔
      ∃ p m q : List Char, (normalizeStr t).data = p ++ m ++ q ∧
        4 ≤ m.length ∧ m.length ≤ 6 ∧ ∀ c ∈ m, c.isDigit = true :=
  searchDigits_iff (normalizeStr t).data

/-- C6: for any input candidate list, the classifier output has no duplicate
normalized texts, equals the keep-first-occurrence deduplication of the
candidate-filtered normalized texts, and is a sublist of the normalized input
(so it preserves first-occurrence document order). -/
theorem c6_dedup (links : List String) :
    (processLinks [] links).Nodup
    ∧ processLinks [] links =
        dedupKeepFirst [] ((links.map normalizeStr).filter (fun t => is_candidate t))
    ∧ (processLinks [] links).Sublist (links.map normalizeStr) :=
  ⟨processLinks_nodup links [], processLinks_eq_dedup links [], processLinks_sublist links []⟩

/-- C7: when setup and login succeed and no exception interrupts page
retrieval, a document with no semester header matching either term pattern and
no legacy marker text yields `{success: true, current_classes: []}`. -/
theorem c7_no_header_empty_success (env : OrchEnv)
    (hsetup : env.setupRaises = false)
    (hlogin : (login env.loginEnv).1 = true)
    (hmid : env.midRaises = none)
    (hheaders : ∀ tg ∈ effectiveDoc env, isHeaderTag tg = true →
      searchTerm TermPat.exact (normalizeStr tg.text) = false ∧
      searchTerm TermPat.generic (normalizeStr tg.text) = false)
    (hlegacy : containsStr "Aktuelle Veranstaltungen" (getText (effectiveDoc env)) = false) :
    (get_current_classes env).1 = ScrapeResult.ok [] := by
  have hfs := findStart_none _ hheaders
  simp [get_current_classes, runScrape, hsetup, hlogin, hmid,
    extract_current_classes, hfs, hlegacy]

/-- C7 (witness): the no-header scenario at a concrete environment with an
authenticated session and a fetched page containing a single anchor. -/
theorem c7_witness : (get_current_classes envC7).1 = ScrapeResult.ok [] :=
  c7_no_header_empty_success envC7 (by decide) (by decide) (by decide)
    (by decide) (by decide)

/-- C8: on any Session State that is already authenticated (portal-domain URL
and the "Abmelden" marker in the page), the login orchestrator returns success
having performed only the initial navigation — no credential field is filled
and nothing is submitted — and a second invocation on an equally authenticated
state returns success the same way. -/
theorem c8_idempotent_login (env env2 : LoginEnv)
    (h1 : containsStr "lsf.tu-dortmund.de" env.urlAfterNav = true)
    (h2 : containsStr "Abmelden" env.srcAfterNav = true)
    (h3 : containsStr "lsf.tu-dortmund.de" env2.urlAfterNav = true)
    (h4 : containsStr "Abmelden" env2.srcAfterNav = true) :
    login env = (true, [Act.navigate lsf_url])
    ∧ login env2 = (true, [Act.navigate lsf_url])
    ∧ ∀ a ∈ (login env).2, a ≠ Act.fillUsername ∧ a ≠ Act.fillPassword
        ∧ a ≠ Act.clickSubmit ∧ a ≠ Act.submitForm := by
  have e1 : login env = (true, [Act.navigate lsf_url]) := by
    rw [login, if_pos (by simp [h1, h2])]
  have e2 : login env2 = (true, [Act.navigate lsf_url]) := by
    rw [login, if_pos (by simp [h3, h4])]
  refine ⟨e1, e2, ?_⟩
  rw [e1]
  intro a ha
  simp only [List.mem_singleton] at ha
  subst ha
  refine ⟨by simp, by simp, by simp, by simp⟩

/-- C8 (witness): the idempotence statement at the concrete authenticated
environment. -/
theorem c8_witness :
    login loginEnvAuth = (true, [Act.navigate lsf_url])
    ∧ login loginEnvAuth = (true, [Act.navigate lsf_url])
    ∧ ∀ a ∈ (login loginEnvAuth).2, a ≠ Act.fillUsername ∧ a ≠ Act.fillPassword
        ∧ a ≠ Act.clickSubmit ∧ a ≠ Act.submitForm :=
  c8_idempotent_login loginEnvAuth loginEnvAuth (by decide) (by decide) (by decide) (by decide)

/-- C9: whenever a driver exists, the very last effect of the top-level
operation is releasing it (`driver.quit()` in the `finally` clause), on every
exit path — success, login failure, or a caught exception. -/
theorem c9_driver_released (env : OrchEnv) (h : env.driverExists = true) :
    (get_current_classes env).2.getLast? = some Act.quitDriver := by
  simp only [get_current_classes, h, if_true]
  exact List.getLast?_concat _

/-- C9 (witness): the release property at a concrete environment. -/
theorem c9_witness : (get_current_classes envC7).2.getLast? = some Act.quitDriver :=
  c9_driver_released envC7 (by decide)

/-- C3: in a document `pre ++ H2 :: (mid ++ H3 :: post)` whose selected start
boundary is `H2` (with `H3` the next node carrying the header marker class and
no header inside `mid`), the candidate anchors are exactly the anchors of
`mid` — strictly after `H2`, strictly before `H3`; anchors in `pre` or from
`H3` on are never examined.  If instead nothing follows `mid`, the end
boundary is the document end and the candidates are again exactly the anchors
of `mid`.  Extraction then processes precisely those anchors' texts. -/
theorem c3_boundaries (pre mid post : List Tag) (H2 H3 : Tag)
    (hH2 : isHeaderTag H2 = true) (hH3 : isHeaderTag H3 = true)
    (hmid : ∀ t ∈ mid, isHeaderTag t = false)
    (hsel : findStart (pre ++ H2 :: (mid ++ H3 :: post)) = some pre.length)
    (hsel2 : findStart (pre ++ H2 :: mid) = some pre.length) :
    collectCandidateLinks ((pre ++ H2 :: (mid ++ H3 :: post)).drop (pre.length + 1))
      = mid.filter (fun t => t.name == "a")
    ∧ collectCandidateLinks ((pre ++ H2 :: mid).drop (pre.length + 1))
      = mid.filter (fun t => t.name == "a")
    ∧ extract_current_classes (pre ++ H2 :: (mid ++ H3 :: post))
      = processLinks [] ((mid.filter (fun t => t.name == "a")).map Tag.text) := by
  have h1 : collectCandidateLinks ((pre ++ H2 :: (mid ++ H3 :: post)).drop (pre.length + 1))
      = mid.filter (fun t => t.name == "a") := by
    rw [drop_append_cons]
    exact collect_stops mid (H3 :: post) hmid (Or.inr ⟨H3, post, rfl, hH3⟩)
  have h2 : collectCandidateLinks ((pre ++ H2 :: mid).drop (pre.length + 1))
      = mid.filter (fun t => t.name == "a") := by
    rw [drop_append_cons]
    have := collect_stops mid [] hmid (Or.inl rfl)
    simpa using this
  refine ⟨h1, h2, ?_⟩
  simp only [extract_current_classes, hsel, h1]

/-- C3 (witness): the boundary property at the concrete scenario document with
headers at positions 0 (non-matching), 1 (selected) and 5 (end boundary). -/
theorem c3_witness :
    collectCandidateLinks ((preC3 ++ hdrC3 :: (midC3 ++ hdr3C3 :: postC3)).drop (preC3.length + 1))
      = midC3.filter (fun t => t.name == "a")
    ∧ collectCandidateLinks ((preC3 ++ hdrC3 :: midC3).drop (preC3.length + 1))
      = midC3.filter (fun t => t.name == "a")
    ∧ extract_current_classes (preC3 ++ hdrC3 :: (midC3 ++ hdr3C3 :: postC3))
      = processLinks [] ((midC3.filter (fun t => t.name == "a")).map Tag.text) :=
  c3_boundaries preC3 midC3 postC3 hdrC3 hdr3C3 (by decide) (by decide) (by decide)
    (by decide) (by decide)

/-- C4: term patterns are tried most specific first.  If the header list splits
as `h1 ++ (i, tg) :: h2` where `tg` matches the exact expected-term pattern and
no earlier header does, the start boundary is `i` — regardless of any generic
matches among earlier headers, so the generic pattern is never consulted.  The
generic pattern decides only when no header at all matches the exact pattern,
and then again the first generic-matching header wins. -/
theorem c4_pattern_priority (doc : List Tag) :
    (∀ (h1 h2 : List (Nat × Tag)) (i : Nat) (tg : Tag),
      headersEnum doc = h1 ++ (i, tg) :: h2 →
      searchTerm TermPat.exact (normalizeStr tg.text) = true →
      (∀ x ∈ h1, searchTerm TermPat.exact (normalizeStr x.2.text) = false) →
      findStart doc = some i)
    ∧ (∀ (h1 h2 : List (Nat × Tag)) (i : Nat) (tg : Tag),
      headersEnum doc = h1 ++ (i, tg) :: h2 →
      (∀ x ∈ headersEnum doc, searchTerm TermPat.exact (normalizeStr x.2.text) = false) →
      searchTerm TermPat.generic (normalizeStr tg.text) = true →
      (∀ x ∈ h1, searchTerm TermPat.generic (normalizeStr x.2.text) = false) →
      findStart doc = some i) := by
  constructor
  · intro h1 h2 i tg hsplit hhit hfail
    have he : findHeaderMatching TermPat.exact (headersEnum doc) = some i := by
      rw [hsplit]
      exact findHeaderMatching_append_first TermPat.exact h1 h2 i tg hfail hhit
    simp [findStart, target_patterns, findStartPats, he]
  · intro h1 h2 i tg hsplit hnone hhit hfail
    have he : findHeaderMatching TermPat.exact (headersEnum doc) = none :=
      findHeaderMatching_none_of TermPat.exact _ hnone
    have hg : findHeaderMatching TermPat.generic (headersEnum doc) = some i := by
      rw [hsplit]
      exact findHeaderMatching_append_first TermPat.generic h1 h2 i tg hfail hhit
    simp [findStart, target_patterns, findStartPats, he, hg]

/-- C4 (witness): in a document whose first header matches only the generic
pattern and whose second matches the exact pattern, the second is selected. -/
theorem c4_witness : findStart docC4 = some 1 :=
  (c4_pattern_priority docC4).1
    [(0, ⟨"div", ["Leistungen_Inhalt"], "Sommersemester 2024"⟩)] []
    1 ⟨"div", ["Leistungen_Inhalt"], "Wintersemester 2025/26"⟩
    (by decide) (by decide) (by decide)

/-! ## Case-insensitivity helper lemmas -/

theorem eq_nonletter_iff {c c' : Char} (h : c.toLower = c'.toLower) (d : Char)
    (hd : d.toNat < 65) : c = d ↔ c' = d := by
  rcases toLower_eq_cases h with rfl | ⟨l1, l2, l3⟩ | ⟨l1, l2, l3⟩
  · exact Iff.rfl
  · rw [char_eq_iff_toNat, char_eq_iff_toNat]
    omega
  · rw [char_eq_iff_toNat, char_eq_iff_toNat]
    omega

theorem isSpaceChar_toLower_eq {c c' : Char} (h : c.toLower = c'.toLower) :
    isSpaceChar c = isSpaceChar c' := by
  rcases toLower_eq_cases h with rfl | ⟨l1, l2, l3⟩ | ⟨l1, l2, l3⟩
  · rfl
  · have e1 : isSpaceChar c = false := by
      simp only [Bool.eq_false_iff, Ne, isSpaceChar_iff_toNat]
      omega
    have e2 : isSpaceChar c' = false := by
      simp only [Bool.eq_false_iff, Ne, isSpaceChar_iff_toNat]
      omega
    rw [e1, e2]
  · have e1 : isSpaceChar c = false := by
      simp only [Bool.eq_false_iff, Ne, isSpaceChar_iff_toNat]
      omega
    have e2 : isSpaceChar c' = false := by
      simp only [Bool.eq_false_iff, Ne, isSpaceChar_iff_toNat]
      omega
    rw [e1, e2]

theorem isDigit_toLower_eq {c c' : Char} (h : c.toLower = c'.toLower) :
    c.isDigit = c'.isDigit := by
  rcases toLower_eq_cases h with rfl | ⟨l1, l2, l3⟩ | ⟨l1, l2, l3⟩
  · rfl
  · have e1 : c.isDigit = false := by
      simp only [Bool.eq_false_iff, Ne, isDigit_iff_toNat]
      omega
    have e2 : c'.isDigit = false := by
      simp only [Bool.eq_false_iff, Ne, isDigit_iff_toNat]
      omega
    rw [e1, e2]
  · have e1 : c.isDigit = false := by
      simp only [Bool.eq_false_iff, Ne, isDigit_iff_toNat]
      omega
    have e2 : c'.isDigit = false := by
      simp only [Bool.eq_false_iff, Ne, isDigit_iff_toNat]
      omega
    rw [e1, e2]

theorem caseEqL_nil {s' : List Char} (h : caseEqL [] s') : s' = [] := by
  simpa using h.symm

theorem caseEqL_cons {c : Char} {t s' : List Char} (h : caseEqL (c :: t) s') :
    ∃ c' t', s' = c' :: t' ∧ Char.toLower c = Char.toLower c' ∧ caseEqL t t' := by
  rcases s' with _ | ⟨c', t'⟩
  · simp [caseEqL] at h
  · simp only [caseEqL, List.map_cons, List.cons.injEq] at h
    exact ⟨c', t', rfl, h.1, h.2⟩

theorem dropWhile_space_caseEq : ∀ {s s' : List Char}, caseEqL s s' →
    caseEqL (s.dropWhile isSpaceChar) (s'.dropWhile isSpaceChar) := by
  intro s
  induction s with
  | nil =>
    intro s' h
    rw [caseEqL_nil h]
  | cons c t ih =>
    intro s' h
    obtain ⟨c', t', rfl, hc, ht⟩ := caseEqL_cons h
    rw [List.dropWhile_cons, List.dropWhile_cons, isSpaceChar_toLower_eq hc]
    by_cases hsp : isSpaceChar c' = true
    · rw [if_pos hsp, if_pos hsp]
      exact ih ht
    · rw [if_neg hsp, if_neg hsp]
      exact h

theorem startsWithList_nonletter_caseEq (pat : List Char) (hpat : ∀ d ∈ pat, d.toNat < 65) :
    ∀ {s s' : List Char}, caseEqL s s' → startsWithList pat s = startsWithList pat s' := by
  induction pat with
  | nil => intro s s' h; rfl
  | cons p ps ih =>
    intro s s' h
    rcases s with _ | ⟨c, t⟩
    · rw [caseEqL_nil h]
    · obtain ⟨c', t', rfl, hc, ht⟩ := caseEqL_cons h
      rw [startsWithList, startsWithList]
      have hiff := eq_nonletter_iff hc p (hpat p (List.mem_cons_self _ _))
      have he : (decide (p = c)) = (decide (p = c')) := by
        rw [decide_eq_decide]
        exact ⟨fun hh => (hiff.mp hh.symm).symm, fun hh => (hiff.mpr hh.symm).symm⟩
      rw [he, ih (fun d hd => hpat d (List.mem_cons_of_mem _ hd)) ht]

theorem startsDigits4_caseEq {s s' : List Char} (h : caseEqL s s') :
    startsDigits4 s = startsDigits4 s' := by
  rcases s with _ | ⟨a, s1⟩
  · rw [caseEqL_nil h]
  obtain ⟨a', t1, rfl, ha, h1⟩ := caseEqL_cons h
  rcases s1 with _ | ⟨b, s2⟩
  · rw [caseEqL_nil h1]
    rfl
  obtain ⟨b', t2, rfl, hb, h2⟩ := caseEqL_cons h1
  rcases s2 with _ | ⟨c, s3⟩
  · rw [caseEqL_nil h2]
    rfl
  obtain ⟨c', t3, rfl, hc, h3⟩ := caseEqL_cons h2
  rcases s3 with _ | ⟨d, s4⟩
  · rw [caseEqL_nil h3]
    rfl
  obtain ⟨d', t4, rfl, hd4, h4⟩ := caseEqL_cons h3
  rw [startsDigits4, startsDigits4, isDigit_toLower_eq ha, isDigit_toLower_eq hb,
    isDigit_toLower_eq hc, isDigit_toLower_eq hd4]

theorem dropLitCI_caseEq (pat : List Char) :
    ∀ {s s' : List Char}, caseEqL s s' →
      (dropLitCI pat s = none ∧ dropLitCI pat s' = none)
      ∨ ∃ r r', dropLitCI pat s = some r ∧ dropLitCI pat s' = some r' ∧ caseEqL r r' := by
  induction pat with
  | nil =>
    intro s s' h
    exact Or.inr ⟨s, s', rfl, rfl, h⟩
  | cons p ps ih =>
    intro s s' h
    rcases s with _ | ⟨c, t⟩
    · rw [caseEqL_nil h]
      exact Or.inl ⟨rfl, rfl⟩
    · obtain ⟨c', t', rfl, hc, ht⟩ := caseEqL_cons h
      rw [dropLitCI, dropLitCI]
      by_cases he : Char.toLower p = Char.toLower c
      · rw [if_pos he, if_pos (he.trans hc)]
        exact ih ht
      · rw [if_neg he, if_neg (fun hx => he (hx.trans hc.symm))]
        exact Or.inl ⟨rfl, rfl⟩

theorem matchExactAt_caseEq {s s' : List Char} (h : caseEqL s s') :
    matchExactAt s = matchExactAt s' := by
  rw [matchExactAt, matchExactAt]
  rcases dropLitCI_caseEq "Wintersemester".data h with ⟨e1, e2⟩ | ⟨r, r', e1, e2, hr⟩
  · rw [e1, e2]
  · rw [e1, e2]
    exact startsWithList_nonletter_caseEq "2025/26".data (by decide) (dropWhile_space_caseEq hr)

theorem matchGenericAt_caseEq {s s' : List Char} (h : caseEqL s s') :
    matchGenericAt s = matchGenericAt s' := by
  rw [matchGenericAt, matchGenericAt]
  rcases dropLitCI_caseEq "Wintersemester".data h with ⟨e1, e2⟩ | ⟨r, r', e1, e2, hr⟩
  · rw [e1, e2]
    rcases dropLitCI_caseEq "Sommersemester".data h with ⟨f1, f2⟩ | ⟨u, u', f1, f2, hu⟩
    · rw [f1, f2]
    · rw [f1, f2]
      exact startsDigits4_caseEq (dropWhile_space_caseEq hu)
  · rw [e1, e2]
    exact startsDigits4_caseEq (dropWhile_space_caseEq hr)

theorem searchBy_caseEq (m : List Char → Bool)
    (hm : ∀ {u u' : List Char}, caseEqL u u' → m u = m u') :
    ∀ {s s' : List Char}, caseEqL s s' → searchBy m s = searchBy m s' := by
  intro s
  induction s with
  | nil =>
    intro s' h
    rw [caseEqL_nil h]
  | cons c t ih =>
    intro s' h
    obtain ⟨c', t', rfl, hc, ht⟩ := caseEqL_cons h
    rw [searchBy, searchBy, hm h, ih ht]

theorem searchTerm_caseEq (p : TermPat) (s s' : String) (h : caseEqL s.data s'.data) :
    searchTerm p s = searchTerm p s' := by
  cases p
  · show searchBy matchExactAt s.data = searchBy matchExactAt s'.data
    exact searchBy_caseEq matchExactAt (fun hu => matchExactAt_caseEq hu) h
  · show searchBy matchGenericAt s.data = searchBy matchGenericAt s'.data
    exact searchBy_caseEq matchGenericAt (fun hu => matchGenericAt_caseEq hu) h

/-- C10: semester-header matching is case-insensitive — the match result of
either term pattern is unchanged between texts equal up to ASCII letter case —
and a header written entirely in lowercase ("wintersemester 2025/26") is
selected as the start boundary even though the patterns are capitalized. -/
theorem c10_case_insensitive :
    (∀ (p : TermPat) (s s' : String), caseEqL s.data s'.data → searchTerm p s = searchTerm p s')
    ∧ findStart docC10 = some 0 :=
  ⟨searchTerm_caseEq, by decide⟩

/-- C10 (witness): the fully uppercased and fully lowercased spellings of the
expected term are case-equal, and the exact pattern treats them alike. -/
theorem c10_witness :
    caseEqL ("WINTERSEMESTER 2025/26" : String).data ("wintersemester 2025/26" : String).data
    ∧ searchTerm TermPat.exact "WINTERSEMESTER 2025/26"
      = searchTerm TermPat.exact "wintersemester 2025/26" :=
  ⟨by decide, c10_case_insensitive.1 TermPat.exact _ _ (by decide)⟩
